import Mathlib

/-!
Verification development for the Webscraper_folder repository.

The repository has three Python files:
* `westfield_scraper.py` with `clean_store_name` (a 13-stage regex pipeline)
  and `extract_store_links` (anchor filtering plus a class-based fallback),
  and a `main` that per-source deduplicates and builds a grouped display.
* `webscraper_jan.py` with its own `clean_store_name` (only the first eight
  stages plus the duplicated-halves collapse) and
  `extract_store_names_from_page` (same extraction logic).
* `export_westfield_to_excel.py` building a merged view and a globally
  deduplicated "unique" view keyed on `store.strip().lower()`.

The embedding below works on `List Char` and models Python string and
`re` behaviour restricted to the character repertoire the program actually
manipulates: `\s`, `strip` and `lower` are modelled on ASCII whitespace,
ASCII letters and the Swedish letters appearing in the source patterns.
Regex substitutions are translated rule by rule into explicit, executable
scanning functions (fuel-based recursion where a scan removes chunks), so
every definition reduces in the kernel.
-/

/-- ASCII whitespace class as used by Python `\s` and `str.strip`
(restricted to ASCII; the scraped patterns contain no exotic spaces). -/
def isSpace (c : Char) : Bool :=
  c == ' ' || c == '\t' || c == '\n' || c == '\r' || c == '\x0b' || c == '\x0c'

/-- ASCII digit class, Python `\d` restricted to ASCII. -/
def isDigit (c : Char) : Bool :=
  '0' ≤ c && c ≤ '9'

/-- Python `str.lower` restricted to ASCII letters and the Swedish capitals
appearing in this program's data (Ä, Ö, Å). -/
def pyLower (c : Char) : Char :=
  if 'A' ≤ c && c ≤ 'Z' then Char.ofNat (c.toNat + 32)
  else if c == 'Ä' then 'ä'
  else if c == 'Ö' then 'ö'
  else if c == 'Å' then 'å'
  else c

/-- Python regex word character `\w` (ASCII alphanumerics, underscore, and
the Swedish letters appearing in the source patterns). -/
def isWordChar (c : Char) : Bool :=
  ('a' ≤ c && c ≤ 'z') || ('A' ≤ c && c ≤ 'Z') || isDigit c || c == '_' ||
  c == 'ä' || c == 'ö' || c == 'å' || c == 'Ä' || c == 'Ö' || c == 'Å'

/-- Length of the longest prefix satisfying `p`. -/
def countWhile (p : Char → Bool) (l : List Char) : Nat :=
  (l.takeWhile p).length

/-- Remove trailing characters satisfying `p` (right half of `str.strip`). -/
def dropTrailing (p : Char → Bool) (l : List Char) : List Char :=
  (l.reverse.dropWhile p).reverse

/-- Python `str.strip()`. -/
def stripList (l : List Char) : List Char :=
  dropTrailing isSpace (l.dropWhile isSpace)

/-- Lowercase a character list via `pyLower`. -/
def lowerList (l : List Char) : List Char :=
  l.map pyLower

/-- First index whose character satisfies `p`. -/
def findIdxA (p : Char → Bool) : List Char → Option Nat
  | [] => none
  | c :: cs => if p c then some 0 else (findIdxA p cs).map (· + 1)

/-- Does `needle` occur at the start of `hay`? -/
def isPrefixL : List Char → List Char → Bool
  | [], _ => true
  | _ :: _, [] => false
  | a :: as, b :: bs => a == b && isPrefixL as bs

/-- Does `needle` occur anywhere in `hay` (Python `in` on strings)? -/
def containsSubL (needle : List Char) : List Char → Bool
  | [] => isPrefixL needle []
  | c :: cs => isPrefixL needle (c :: cs) || containsSubL needle cs

/-- Python `str.strip` on `String`. -/
def stripStr (s : String) : String :=
  ⟨stripList s.data⟩

/-- Python `str.lower` on `String`. -/
def lowerStr (s : String) : String :=
  ⟨lowerList s.data⟩

/-- Python `needle in hay` on `String`. -/
def containsStr (hay needle : String) : Bool :=
  containsSubL needle.data hay.data

/-! ### Stage 2: `re.sub(r"\s*\([^)]*\)", "", s)` — drop parenthesized text -/

/-- One-pass removal of `\s*\([^)]*\)` matches, left to right, as `re.sub`
does: find the first `(`, the first `)` after it, drop that span together
with the whitespace run immediately before the `(`, continue on the rest. -/
def removeParensAux : Nat → List Char → List Char
  | 0, l => l
  | fuel + 1, l =>
    match findIdxA (fun c => c == '(') l with
    | none => l
    | some i =>
      match findIdxA (fun c => c == ')') (l.drop (i + 1)) with
      | none => l
      | some j =>
        dropTrailing isSpace (l.take i) ++ removeParensAux fuel (l.drop (i + 1 + j + 1))

/-- Stage removing parenthesized substrings. -/
def removeParens (l : List Char) : List Char :=
  removeParensAux (l.length + 1) l

/-! ### Stage 3: `re.sub(r"\b[Pp]lan\s*\d+\b", "", s)` — drop floor markers -/

/-- Does `\b[Pp]lan\s*\d+\b` match at the head of `l` (with `prevWord`
recording whether the previous character was a word character)?
Returns the number of characters consumed. -/
def matchPlanAt (prevWord : Bool) : List Char → Option Nat
  | [] => none
  | p :: rest =>
    if prevWord then none
    else if (p == 'P' || p == 'p') && isPrefixL (['l', 'a', 'n']) rest then
      let rest2 := rest.drop 3
      let w := countWhile isSpace rest2
      let rest3 := rest2.drop w
      let d := countWhile isDigit rest3
      if d == 0 then none
      else
        match (rest3.drop d).head? with
        | none => some (4 + w + d)
        | some c => if isWordChar c then none else some (4 + w + d)
    else none

/-- Scanner applying all `\b[Pp]lan\s*\d+\b` removals left to right. -/
def subPlanNumAux : Nat → Bool → List Char → List Char
  | 0, _, l => l
  | _ + 1, _, [] => []
  | fuel + 1, prevWord, c :: cs =>
    match matchPlanAt prevWord (c :: cs) with
    | some n => subPlanNumAux fuel true ((c :: cs).drop n)
    | none => c :: subPlanNumAux fuel (isWordChar c) cs

/-- Stage removing `plan <num>` floor markers. -/
def subPlanNum (l : List Char) : List Char :=
  subPlanNumAux (l.length + 1) false l

/-! ### Stages 4 and 8: word-set deletion with `\b` on both sides -/

/-- Delete every maximal word-character run whose lowercasing is in `S`.
This is exactly `re.sub` of a `(?i)\b(w1|w2|...)\b` alternation whose
alternatives all end at a word boundary. -/
def delWordsAux (S : List (List Char)) : Nat → List Char → List Char
  | 0, l => l
  | _ + 1, [] => []
  | fuel + 1, c :: cs =>
    if isWordChar c then
      let run := List.takeWhile isWordChar (c :: cs)
      let rest := List.dropWhile isWordChar (c :: cs)
      if lowerList run ∈ S then delWordsAux S fuel rest
      else run ++ delWordsAux S fuel rest
    else c :: delWordsAux S fuel cs

/-- Word-set deletion entry point. -/
def delWords (S : List (List Char)) (l : List Char) : List Char :=
  delWordsAux S (l.length + 1) l

/-- The status-word alternation `stäng[ta]?|stänger|stängt|öppet|stängd`
read off as the set of whole words it can match. -/
def statusWords : List (List Char) :=
  [("stäng").data, ("stängt").data, ("stänga").data, ("stänger").data,
   ("öppet").data, ("stängd").data]

/-! ### Stage 5: `re.sub(r"[-–—].*$", "", s)` — truncate at a dash -/

/-- The dash class `[-–—]`. -/
def isDashChar (c : Char) : Bool :=
  c == '-' || c == '–' || c == '—'

/-- Truncation at the first dash that can see the end of the string
(`.` does not cross a newline; `$` also matches just before a final
newline, which is then kept). -/
def subDash (l : List Char) : List Char :=
  let e := if l.getLast? == some '\n' then l.length - 1 else l.length
  let core := l.take e
  let lineStart := e - countWhile (fun c => !(c == '\n')) core.reverse
  match findIdxA isDashChar (core.drop lineStart) with
  | none => l
  | some k => l.take (lineStart + k) ++ l.drop e

/-! ### Stage 6: `re.sub(r"(?i)^(butik|butiker|shop)[:\s-]+", "", s)` -/

/-- The separator class `[:\s-]`. -/
def isSepChar (c : Char) : Bool :=
  c == ':' || c == '-' || isSpace c

/-- Try to drop the case-insensitive word `w` from the front, together
with the (required, maximal) following run of `[:\s-]` separators. -/
def dropLabel (w : List Char) (l : List Char) : Option (List Char) :=
  if lowerList (l.take w.length) = w then
    let rest := l.drop w.length
    let k := countWhile isSepChar rest
    if 0 < k then some (rest.drop k) else none
  else none

/-- Stage removing a leading generic label, trying the alternatives in the
source's order `butik`, `butiker`, `shop` with backtracking. -/
def subLeadGeneric (l : List Char) : List Char :=
  match dropLabel (("butik").data) l with
  | some r => r
  | none =>
    match dropLabel (("butiker").data) l with
    | some r => r
    | none =>
      match dropLabel (("shop").data) l with
      | some r => r
      | none => l

/-! ### Stage 7: `re.sub(r"\s+", " ", s)` followed by `strip` -/

/-- Replace every maximal whitespace run by a single space. -/
def collapseWSAux : Bool → List Char → List Char
  | _, [] => []
  | afterWS, c :: cs =>
    if isSpace c then
      if afterWS then collapseWSAux true cs else ' ' :: collapseWSAux true cs
    else c :: collapseWSAux false cs

/-- Stage collapsing whitespace and trimming. -/
def collapseWS (l : List Char) : List Char :=
  stripList (collapseWSAux false l)

/-- Stage 8: `re.sub(r"(?i)\bplan\b", "", s).strip()`. -/
def subLonePlan (l : List Char) : List Char :=
  stripList (delWords [("plan").data] l)

/-! ### Stage 9: `re.sub(r"\s*\|.*$", "", s)` — truncate at a pipe
(the input here never contains a newline: stage 7 collapsed them). -/

/-- Stage truncating at the first pipe, with preceding whitespace. -/
def subPipe (l : List Char) : List Char :=
  match findIdxA (fun c => c == '|') l with
  | none => l
  | some i => dropTrailing isSpace (l.take i)

/-! ### Stages 10 and 11: truncate from a denylisted word onwards -/

/-- Is the next character a non-word character (or the end)? -/
def boundaryAfterOk (l : List Char) : Bool :=
  match l.head? with
  | none => true
  | some c => !isWordChar c

/-- Does some phrase of `S` match case-insensitively at the head of `l`,
with a word boundary on each side? -/
def matchWordsAt (S : List (List Char)) (prevWord : Bool) (l : List Char) : Bool :=
  !prevWord && S.any (fun w => (lowerList (l.take w.length) == w) && boundaryAfterOk (l.drop w.length))

/-- Keep the prefix before the leftmost boundary-delimited occurrence of a
phrase of `S`; drop everything from that occurrence on (`\b(...)\b.*$`). -/
def truncWordsAux (S : List (List Char)) : Bool → List Char → List Char
  | _, [] => []
  | prevWord, c :: cs =>
    if matchWordsAt S prevWord (c :: cs) then []
    else c :: truncWordsAux S (isWordChar c) cs

/-- Denylist truncation entry point. -/
def truncWords (S : List (List Char)) (l : List Char) : List Char :=
  truncWordsAux S false l

/-- The location-marker words of stage 10. -/
def locWords : List (List Char) :=
  [("gatuplan").data, ("övre").data, ("nedre").data]

/-- The street/place denylist of stage 11. -/
def streetWords : List (List Char) :=
  [("hamngatan").data, ("postgatan").data, ("köpmansgatan").data,
   ("spannmålsgatan").data, ("nordstadstorget").data,
   ("lilla klädpressaregatan").data]

/-! ### Stage 12: `re.sub` of whitespace-comma-slash-dash separators,
then digits, then whitespace, anchored at the end — trailing address -/

/-- The separator class of stage 12: whitespace, comma, slash, dash. -/
def isNumSep (c : Char) : Bool :=
  isSpace c || c == ',' || c == '/' || c == '-'

/-- Stage stripping a trailing numeric address fragment: trailing
whitespace, then a digit run, then the maximal separator run before it;
no change when no digit run ends the (whitespace-stripped) string. -/
def subTrailNum (l : List Char) : List Char :=
  match (dropTrailing isSpace l).getLast? with
  | none => l
  | some c =>
    if isDigit c then dropTrailing isNumSep (dropTrailing isDigit (dropTrailing isSpace l))
    else l

/-! ### Stage 13: `re.match(r"^(?P<x>.+?)\s+\1$", s, re.IGNORECASE)` -/

/-- Does the lazy-match split at `k` succeed: a nonempty newline-free
prefix of length `k`, a nonempty all-whitespace middle, and a
case-insensitive copy of the prefix at the end? -/
def dupHalfCheck (l : List Char) (k : Nat) : Bool :=
  let n := l.length
  decide (1 ≤ k) && decide (2 * k < n) &&
  (l.take k).all (fun c => !(c == '\n')) &&
  ((l.drop k).take (n - 2 * k)).all isSpace &&
  (lowerList (l.take k) == lowerList (l.drop (n - k)))

/-- Find the least split `k ≥ 1` accepted by `dupHalfCheck` (the regex
group is lazy, so Python also takes the least such split). -/
def findDupK : Nat → Nat → List Char → Option Nat
  | 0, _, _ => none
  | fuel + 1, k, l => if dupHalfCheck l k then some k else findDupK fuel (k + 1) l

/-- Stage collapsing `X X` (case-insensitively equal halves) to `X`. -/
def subDupHalf (l : List Char) : List Char :=
  match findDupK (l.length + 1) 1 l with
  | some k => stripList (l.take k)
  | none => l

/-! ### The two normalizers -/

/-- Stages 1–8, shared verbatim between the two `clean_store_name`
implementations: strip, parens, floor markers, status words, dash
truncation, leading label, whitespace collapse, lone `plan`. -/
def commonStages (l : List Char) : List Char :=
  subLonePlan (collapseWS (subLeadGeneric (subDash (delWords statusWords (subPlanNum (removeParens (stripList l)))))))

/-- Stages 9–12, present only in `westfield_scraper.py`: pipe truncation,
location markers, street denylist, trailing numeric address. -/
def lateStages (l : List Char) : List Char :=
  subTrailNum (truncWords streetWords (truncWords locWords (subPipe l)))

namespace westfield_scraper

/-- `clean_store_name` from `westfield_scraper.py` lines 16–51. -/
def clean_store_name (raw : String) : String :=
  if raw = ("") then ("")
  else ⟨subDupHalf (lateStages (commonStages raw.data))⟩

end westfield_scraper

namespace webscraper_jan

/-- `clean_store_name` from `webscraper_jan.py` lines 27–41 (stages 1–8
and the duplicated-halves collapse; no pipe/location/street/number rules). -/
def clean_store_name (raw : String) : String :=
  if raw = ("") then ("")
  else ⟨subDupHalf (commonStages raw.data)⟩

end webscraper_jan

/-! ### Page elements and candidate extraction

`extract_store_links` (westfield_scraper.py 54–90) and
`extract_store_names_from_page` (webscraper_jan.py 44–79) are line for
line the same algorithm, differing only in which `clean_store_name` they
call; both are instances of `extractCore` below.  A page element is
modelled by the outcomes of its page-layer accessors: `none` models an
exception raised by the accessor (caught by the `try`/`except` and
treated as "skip this element"), and for `get_attribute` the inner
`Option` models an absent attribute (Python `None`, turned into `""` by
`or ""`).  The function itself is total: no error propagates out. -/

/-- An anchor element: outcomes of `inner_text()` and `get_attribute("href")`. -/
structure Anchor where
  innerText : Option String
  hrefAttr : Option (Option String)

/-- A fallback (class-matched) element: outcome of `inner_text()`. -/
structure FbElem where
  innerText : Option String

/-- A rendered page: the element list returned for the `"a"` selector and
the one for the store-like class selector. -/
structure Page where
  anchors : List Anchor
  classEls : List FbElem

/-- The href path keywords (`heuristics` list in both files). -/
def heuristics : List String :=
  [("/butik"), ("/butiker"), ("/store"), ("/shop"), ("/shops")]

/-- The text keywords checked against the lower-cased anchor text. -/
def textKeys : List String :=
  [("butik"), ("store"), ("shop")]

/-- The accept/reject predicate of the primary pass (lines 67–71 of
`westfield_scraper.py`): reject when the stripped text is shorter than 2
characters, else accept iff the lower-cased href contains a path keyword
or the lower-cased text contains a text keyword. -/
def candidateFilter (text href : String) : Bool :=
  if (stripStr text).length < 2 then false
  else
    heuristics.any (fun k => containsStr (lowerStr href) k) ||
    textKeys.any (fun k => containsStr (lowerStr (stripStr text)) k)

/-- One step of the first-seen deduplication both loops perform on
`(names, seen)`: append `x` to both when unseen. -/
def dedupStep (st : List String × List String) (x : String) : List String × List String :=
  if x ∈ st.2 then st else (st.1 ++ [x], st.2 ++ [x])

/-- Loop body of the primary anchor pass (lines 61–75): skip on
extraction failure, apply the filter, clean, and keep a nonempty unseen
cleaned name. -/
def anchorStep (cleanF : String → String) (st : List String × List String) (a : Anchor) :
    List String × List String :=
  match a.innerText, a.hrefAttr with
  | some t, some h =>
    let text := stripStr t
    if text.length < 2 then st
    else if heuristics.any (fun k => containsStr (lowerStr (h.getD (""))) k) ||
            textKeys.any (fun k => containsStr (lowerStr text) k) then
      let cleaned := cleanF text
      if cleaned ≠ ("") ∧ cleaned ∉ st.2 then (st.1 ++ [cleaned], st.2 ++ [cleaned]) else st
    else st
  | _, _ => st

/-- Loop body of the class-based fallback pass (lines 80–88): no filter,
just clean and keep a nonempty unseen cleaned name. -/
def fbStep (cleanF : String → String) (st : List String × List String) (e : FbElem) :
    List String × List String :=
  match e.innerText with
  | some t =>
    let cleaned := cleanF (stripStr t)
    if cleaned ≠ ("") ∧ cleaned ∉ st.2 then (st.1 ++ [cleaned], st.2 ++ [cleaned]) else st
  | none => st

/-- The whole extraction: primary anchor pass, then — only when it
produced no names — the fallback pass continuing with the same state. -/
def extractCore (cleanF : String → String) (anchors : List Anchor) (classEls : List FbElem) :
    List String :=
  let st := anchors.foldl (anchorStep cleanF) ([], [])
  if st.1 = [] then (classEls.foldl (fbStep cleanF) st).1 else st.1

/-- The cleaned candidate an anchor contributes, if any: extraction must
succeed, the filter must accept, and the cleaned name must be nonempty. -/
def anchorCand (cleanF : String → String) (a : Anchor) : Option String :=
  match a.innerText, a.hrefAttr with
  | some t, some h =>
    if candidateFilter t (h.getD ("")) = true ∧ cleanF (stripStr t) ≠ ("") then
      some (cleanF (stripStr t))
    else none
  | _, _ => none

/-- The cleaned candidate a fallback element contributes, if any. -/
def fbCand (cleanF : String → String) (e : FbElem) : Option String :=
  match e.innerText with
  | some t => if cleanF (stripStr t) ≠ ("") then some (cleanF (stripStr t)) else none
  | none => none

/-- First-seen deduplication of a list against an accumulated `seen` set. -/
def selDedup (seen : List String) : List String → List String
  | [] => []
  | x :: xs => if x ∈ seen then selDedup seen xs else x :: selDedup (seen ++ [x]) xs

namespace westfield_scraper

/-- `extract_store_links` from `westfield_scraper.py` lines 54–90. -/
def extract_store_links (pg : Page) : List String :=
  extractCore clean_store_name pg.anchors pg.classEls

/-- The reserved header tokens of `main` (line 115). -/
def stopHeaders : List String :=
  [("butik"), ("butiker")]

/-- The per-URL deduplication of `main` (lines 107–116): first-seen
exact-string dedup, then drop entries whose stripped lowercasing is a
reserved header token (or that are empty). -/
def perSourceDedup (names : List String) : List String :=
  ((names.foldl dedupStep ([], [])).1).filter
    (fun x => x ≠ ("") ∧ lowerStr (stripStr x) ∉ stopHeaders)

/-- The numbered lines `main` emits for one source (lines 135–136). -/
def numberedLines (names : List String) : List String :=
  (names.enumFrom 1).map (fun p => toString p.1 ++ (". ") ++ p.2)

/-- The grouped display block for one source: its header line (line 133)
followed by its numbered store lines. -/
def groupedLines (title : String) (names : List String) : List String :=
  (("== ") ++ title ++ (" ==")) :: numberedLines names

/-- The grouped, merged display `main` writes (lines 125–144), given per
source its title and its per-source deduplicated names. -/
def mergedDisplay (sources : List (String × List String)) : List String :=
  (sources.map (fun s => groupedLines s.1 s.2)).flatten

end westfield_scraper

namespace webscraper_jan

/-- `extract_store_names_from_page` from `webscraper_jan.py` lines 44–79
(the same algorithm as `extract_store_links`, calling this file's
`clean_store_name`). -/
def extract_store_names_from_page (pg : Page) : List String :=
  extractCore clean_store_name pg.anchors pg.classEls

end webscraper_jan

namespace export_westfield_to_excel

/-- The dedup key of the unique view (line 75): `store.strip().lower()`. -/
def rowKey (store : String) : String :=
  lowerStr (stripStr store)

/-- The merged rows (lines 29–47): for each source file, in order, one
`(source, store)` pair per store, in order. -/
def mergedRows (sources : List (String × List String)) : List (String × String) :=
  (sources.map (fun s => s.2.map (fun store => (s.1, store)))).flatten

/-- Loop body of the unique view (lines 74–78): keep `(store, source)`
when the key is nonempty and unseen. -/
def uniqueStep (st : List (String × String) × List String) (row : String × String) :
    List (String × String) × List String :=
  let k := rowKey row.2
  if k ≠ ("") ∧ k ∉ st.2 then (st.1 ++ [(row.2, row.1)], st.2 ++ [k]) else st

/-- The deduplicated overview (lines 72–83): first occurrence per
case-insensitive key, with the source it first appeared in. -/
def uniqueView (rows : List (String × String)) : List (String × String) :=
  (rows.foldl uniqueStep ([], [])).1

/-- Declarative restatement of the unique view used to verify it: a row
is kept iff its key is nonempty and no earlier row has the same key,
recording `(store, source)` in scan order. -/
def firstOccurrenceView (earlier : List (String × String)) :
    List (String × String) → List (String × String)
  | [] => []
  | r :: rest =>
    if rowKey r.2 ≠ ("") ∧ (∀ e ∈ earlier, rowKey e.2 ≠ rowKey r.2) then
      (r.2, r.1) :: firstOccurrenceView (earlier ++ [r]) rest
    else firstOccurrenceView (earlier ++ [r]) rest

end export_westfield_to_excel

/-- Does the list start with a non-whitespace character (or is it empty)? -/
def noLeadWS (l : List Char) : Bool :=
  l.head?.all (fun c => !isSpace c)

/-- Is the string whitespace-normalized: no leading or trailing
whitespace, and no two consecutive whitespace characters? -/
def noDoubleWS : List Char → Bool
  | [] => true
  | [_] => true
  | a :: b :: rest => !(isSpace a && isSpace b) && noDoubleWS (b :: rest)

/-- Whitespace-normalization predicate on strings. -/
def wsNormalized (s : String) : Bool :=
  noLeadWS s.data && s.data.getLast?.all (fun c => !isSpace c) && noDoubleWS s.data

example : westfield_scraper.clean_store_name ("Store (Closed)") = ("Store") := by decide
example : westfield_scraper.clean_store_name ("Name - stängt") = ("Name") := by decide
example : westfield_scraper.clean_store_name ("Butik: Shoe World") = ("Shoe World") := by decide
example : westfield_scraper.clean_store_name ("Shop Shop") = ("Shop") := by decide
example : webscraper_jan.clean_store_name ("Shop Shop") = ("Shop") := by decide
example : westfield_scraper.clean_store_name ("butik: butik: x") = ("butik: x") := by decide
example : westfield_scraper.clean_store_name ("butik: x") = ("x") := by decide
example : westfield_scraper.clean_store_name ("a plan b") = ("a  b") := by decide
example : westfield_scraper.clean_store_name ("Name gatuplan") = ("Name ") := by decide
example : westfield_scraper.clean_store_name ("Name | Location") = ("Name") := by decide
example : webscraper_jan.clean_store_name ("Name | Location") = ("Name | Location") := by decide
example : westfield_scraper.clean_store_name ("Nike") = ("Nike") := by decide

/-! ## Generic lemmas about the first-seen deduplication fold -/

/-- The `(names, seen)` fold is the first-seen deduplication of its input
appended to both components. -/
theorem foldl_dedupStep_eq (xs : List String) : ∀ ns seen : List String,
    List.foldl dedupStep (ns, seen) xs = (ns ++ selDedup seen xs, seen ++ selDedup seen xs) := by
  induction xs with
  | nil => intro ns seen; simp [selDedup]
  | cons x xs ih =>
    intro ns seen
    by_cases hx : x ∈ seen
    · rw [List.foldl_cons]
      have hstep : dedupStep (ns, seen) x = (ns, seen) := by simp [dedupStep, hx]
      rw [hstep, ih, selDedup, if_pos hx]
    · rw [List.foldl_cons]
      have hstep : dedupStep (ns, seen) x = (ns ++ [x], seen ++ [x]) := by simp [dedupStep, hx]
      rw [hstep, ih, selDedup, if_neg hx]
      simp [List.append_assoc]

/-- First-seen deduplication yields a sublist of its input (in particular
it preserves relative order). -/
theorem selDedup_sublist (xs : List String) : ∀ seen, List.Sublist (selDedup seen xs) xs := by
  induction xs with
  | nil => intro seen; simp [selDedup]
  | cons x xs ih =>
    intro seen
    by_cases hx : x ∈ seen
    · rw [selDedup, if_pos hx]
      exact (ih seen).cons x
    · rw [selDedup, if_neg hx]
      exact (ih (seen ++ [x])).cons₂ x

/-- Nothing already seen is emitted again. -/
theorem selDedup_not_mem (xs : List String) : ∀ seen y, y ∈ selDedup seen xs → y ∉ seen := by
  induction xs with
  | nil => intro seen y h; simp [selDedup] at h
  | cons x xs ih =>
    intro seen y h
    by_cases hx : x ∈ seen
    · rw [selDedup, if_pos hx] at h
      exact ih seen y h
    · rw [selDedup, if_neg hx] at h
      rcases List.mem_cons.mp h with rfl | h
      · exact hx
      · intro hy
        exact (ih _ y h) (List.mem_append_left _ hy)

/-- First-seen deduplication emits no duplicates. -/
theorem selDedup_nodup (xs : List String) : ∀ seen, (selDedup seen xs).Nodup := by
  induction xs with
  | nil => intro seen; simp [selDedup]
  | cons x xs ih =>
    intro seen
    by_cases hx : x ∈ seen
    · rw [selDedup, if_pos hx]
      exact ih seen
    · rw [selDedup, if_neg hx]
      refine List.nodup_cons.mpr ⟨?_, ih _⟩
      intro hmem
      exact (selDedup_not_mem xs _ x hmem) (List.mem_append_right _ (by simp))

/-- First-seen deduplication is empty exactly when every input is seen. -/
theorem selDedup_eq_nil_iff (xs : List String) :
    ∀ seen, selDedup seen xs = [] ↔ ∀ x ∈ xs, x ∈ seen := by
  induction xs with
  | nil => intro seen; simp [selDedup]
  | cons x xs ih =>
    intro seen
    by_cases hx : x ∈ seen
    · rw [selDedup, if_pos hx, ih seen]
      constructor
      · intro h y hy
        rcases List.mem_cons.mp hy with rfl | hy
        · exact hx
        · exact h y hy
      · intro h y hy
        exact h y (List.mem_cons_of_mem x hy)
    · rw [selDedup, if_neg hx]
      constructor
      · intro h
        exact absurd h (List.cons_ne_nil _ _)
      · intro h
        exact absurd (h x (List.mem_cons_self x xs)) hx

/-! ## The extraction loops as deduplication over candidate sequences -/

/-- One primary-loop step is: do nothing unless the anchor contributes a
candidate, else a deduplication step on that candidate. -/
theorem anchorStep_eq (f : String → String) (st : List String × List String) (a : Anchor) :
    anchorStep f st a =
      match anchorCand f a with
      | none => st
      | some c => dedupStep st c := by
  obtain ⟨t, h⟩ := a
  cases t with
  | none => cases h <;> rfl
  | some t0 =>
    cases h with
    | none => rfl
    | some h0 =>
      by_cases hlen : (stripStr t0).length < 2
      · simp [anchorStep, anchorCand, candidateFilter, hlen]
      · by_cases hhit : (heuristics.any (fun k => containsStr (lowerStr (h0.getD (""))) k) ||
            textKeys.any (fun k => containsStr (lowerStr (stripStr t0)) k)) = true
        · by_cases hcl : f (stripStr t0) = ("")
          · simp [anchorStep, anchorCand, candidateFilter, hlen, hhit, hcl]
          · simp [anchorStep, anchorCand, candidateFilter, hlen, hhit, hcl, dedupStep]
        · simp [anchorStep, anchorCand, candidateFilter, hlen, hhit]

/-- One fallback-loop step, in the same shape. -/
theorem fbStep_eq (f : String → String) (st : List String × List String) (e : FbElem) :
    fbStep f st e =
      match fbCand f e with
      | none => st
      | some c => dedupStep st c := by
  obtain ⟨t⟩ := e
  cases t with
  | none => rfl
  | some t0 =>
    by_cases hcl : f (stripStr t0) = ("")
    · simp [fbStep, fbCand, hcl]
    · simp [fbStep, fbCand, hcl, dedupStep]

/-- The primary pass is the deduplication fold over the anchors'
candidate sequence. -/
theorem foldl_anchorStep (f : String → String) (l : List Anchor) : ∀ st,
    List.foldl (anchorStep f) st l = List.foldl dedupStep st (l.filterMap (anchorCand f)) := by
  induction l with
  | nil => intro st; rfl
  | cons a l ih =>
    intro st
    rw [List.foldl_cons, anchorStep_eq]
    cases hc : anchorCand f a with
    | none => rw [List.filterMap_cons, hc]; exact ih st
    | some c =>
      rw [List.filterMap_cons, hc, List.foldl_cons]
      exact ih _

/-- The fallback pass is the deduplication fold over the fallback
elements' candidate sequence. -/
theorem foldl_fbStep (f : String → String) (l : List FbElem) : ∀ st,
    List.foldl (fbStep f) st l = List.foldl dedupStep st (l.filterMap (fbCand f)) := by
  induction l with
  | nil => intro st; rfl
  | cons e l ih =>
    intro st
    rw [List.foldl_cons, fbStep_eq]
    cases hc : fbCand f e with
    | none => rw [List.filterMap_cons, hc]; exact ih st
    | some c =>
      rw [List.filterMap_cons, hc, List.foldl_cons]
      exact ih _

/-- Characterization of the whole extraction: the first-seen-deduplicated
primary candidate sequence when it is nonempty, otherwise the first-seen-
deduplicated fallback candidate sequence. -/
theorem extractCore_eq (f : String → String) (anchors : List Anchor) (classEls : List FbElem) :
    extractCore f anchors classEls =
      if anchors.filterMap (anchorCand f) = [] then
        selDedup [] (classEls.filterMap (fbCand f))
      else selDedup [] (anchors.filterMap (anchorCand f)) := by
  unfold extractCore
  rw [foldl_anchorStep, foldl_dedupStep_eq]
  simp only [List.nil_append]
  by_cases hP : anchors.filterMap (anchorCand f) = []
  · rw [if_pos hP, hP]
    simp only [selDedup, if_true, eq_self_iff_true]
    rw [foldl_fbStep, foldl_dedupStep_eq]
    simp
  · rw [if_neg hP]
    have hne : selDedup [] (anchors.filterMap (anchorCand f)) ≠ [] := by
      intro hnil
      exact hP (List.eq_nil_iff_forall_not_mem.mpr (fun x hx =>
        by simpa using (selDedup_eq_nil_iff _ []).mp hnil x hx))
    rw [if_neg hne]

/-! ## The unique view equals its declarative restatement -/

/-- Invariant-carrying equivalence between the `seen`-set fold of the
dedup overview and the declarative "no earlier row has this key" view. -/
theorem foldl_uniqueStep_eq (rows : List (String × String)) :
    ∀ (acc : List (String × String)) (seen : List String) (earlier : List (String × String)),
      (∀ x : String, x ∈ seen ↔ (x ≠ ("") ∧ ∃ e ∈ earlier, export_westfield_to_excel.rowKey e.2 = x)) →
      (rows.foldl export_westfield_to_excel.uniqueStep (acc, seen)).1 =
        acc ++ export_westfield_to_excel.firstOccurrenceView earlier rows := by
  induction rows with
  | nil =>
    intro acc seen earlier hinv
    simp [export_westfield_to_excel.firstOccurrenceView]
  | cons r rest ih =>
    intro acc seen earlier hinv
    rw [List.foldl_cons]
    by_cases hk : export_westfield_to_excel.rowKey r.2 = ("")
    · have hstep : export_westfield_to_excel.uniqueStep (acc, seen) r = (acc, seen) := by
        simp [export_westfield_to_excel.uniqueStep, hk]
      rw [hstep, export_westfield_to_excel.firstOccurrenceView, if_neg (by simp [hk])]
      apply ih
      intro x
      rw [hinv x]
      constructor
      · rintro ⟨hx, e, he, hkey⟩
        exact ⟨hx, e, List.mem_append_left _ he, hkey⟩
      · rintro ⟨hx, e, he, hkey⟩
        rcases List.mem_append.mp he with he | he
        · exact ⟨hx, e, he, hkey⟩
        · rcases List.mem_singleton.mp he with rfl
          exact absurd (hkey ▸ hk) hx
    · by_cases hseen : export_westfield_to_excel.rowKey r.2 ∈ seen
      · have hstep : export_westfield_to_excel.uniqueStep (acc, seen) r = (acc, seen) := by
          simp [export_westfield_to_excel.uniqueStep, hseen]
        obtain ⟨-, e, he, hkey⟩ := (hinv _).mp hseen
        rw [hstep, export_westfield_to_excel.firstOccurrenceView,
          if_neg (by push_neg; intro _; exact ⟨e, he, hkey⟩)]
        apply ih
        intro x
        rw [hinv x]
        constructor
        · rintro ⟨hx, e2, he2, hkey2⟩
          exact ⟨hx, e2, List.mem_append_left _ he2, hkey2⟩
        · rintro ⟨hx, e2, he2, hkey2⟩
          rcases List.mem_append.mp he2 with he2 | he2
          · exact ⟨hx, e2, he2, hkey2⟩
          · rcases List.mem_singleton.mp he2 with rfl
            exact ⟨hx, e, he, hkey.trans hkey2⟩
      · have hstep : export_westfield_to_excel.uniqueStep (acc, seen) r =
            (acc ++ [(r.2, r.1)], seen ++ [export_westfield_to_excel.rowKey r.2]) := by
          simp [export_westfield_to_excel.uniqueStep, hk, hseen]
        have hnone : ∀ e ∈ earlier, export_westfield_to_excel.rowKey e.2 ≠ export_westfield_to_excel.rowKey r.2 := by
          intro e he hkey
          exact hseen ((hinv _).mpr ⟨hk, e, he, hkey⟩)
        rw [hstep, export_westfield_to_excel.firstOccurrenceView, if_pos ⟨hk, hnone⟩]
        rw [ih (acc ++ [(r.2, r.1)]) _ (earlier ++ [r]) ?_]
        · simp
        · intro x
          constructor
          · intro hx
            rcases List.mem_append.mp hx with hx | hx
            · obtain ⟨h1, e, he, hkey⟩ := (hinv x).mp hx
              exact ⟨h1, e, List.mem_append_left _ he, hkey⟩
            · rcases List.mem_singleton.mp hx with rfl
              exact ⟨hk, r, List.mem_append_right _ (by simp), rfl⟩
          · rintro ⟨hx, e, he, hkey⟩
            rcases List.mem_append.mp he with he | he
            · exact List.mem_append_left _ ((hinv x).mpr ⟨hx, e, he, hkey⟩)
            · rcases List.mem_singleton.mp he with rfl
              exact List.mem_append_right _ (by simp [hkey])

/-- The deduplicated overview keeps exactly the first occurrence of every
nonempty case-insensitive key, in scan order, with its source. -/
theorem uniqueView_eq_firstOccurrenceView (rows : List (String × String)) :
    export_westfield_to_excel.uniqueView rows =
      export_westfield_to_excel.firstOccurrenceView [] rows := by
  unfold export_westfield_to_excel.uniqueView
  rw [foldl_uniqueStep_eq rows [] [] []]
  · simp
  · intro x
    simp

/-! ## Leading-whitespace lemmas for the normalizer -/

/-- A prefix of a list with non-whitespace head also has non-whitespace
head (or is empty). -/
theorem noLeadWS_of_isPrefix {t l : List Char} (h : List.IsPrefix t l)
    (hl : noLeadWS l = true) : noLeadWS t = true := by
  cases t with
  | nil => rfl
  | cons c cs =>
    obtain ⟨r, hr⟩ := h
    cases l with
    | nil => simp at hr
    | cons d ds =>
      have : c = d := by
        have := congrArg List.head? hr
        simpa using this
      subst this
      simpa [noLeadWS] using hl

/-- Dropping leading whitespace leaves a non-whitespace head. -/
theorem noLeadWS_dropWhile (l : List Char) : noLeadWS (l.dropWhile isSpace) = true := by
  induction l with
  | nil => rfl
  | cons c cs ih =>
    by_cases hc : isSpace c = true
    · simpa [List.dropWhile, hc] using ih
    · simp [List.dropWhile, hc, noLeadWS]

/-- `dropTrailing` yields a prefix. -/
theorem dropTrailing_isPrefix (p : Char → Bool) (l : List Char) :
    List.IsPrefix (dropTrailing p l) l := by
  have h := List.dropWhile_suffix (l := l.reverse) p
  have := List.reverse_prefix.mpr h
  simpa [dropTrailing] using this

/-- Stripping always yields a non-whitespace head. -/
theorem noLeadWS_stripList (l : List Char) : noLeadWS (stripList l) = true :=
  noLeadWS_of_isPrefix (dropTrailing_isPrefix isSpace _) (noLeadWS_dropWhile l)

/-- Pipe truncation yields a prefix. -/
theorem subPipe_isPrefix (l : List Char) : List.IsPrefix (subPipe l) l := by
  unfold subPipe
  cases findIdxA (fun c => c == '|') l with
  | none => exact List.prefix_refl l
  | some i => exact (dropTrailing_isPrefix isSpace _).trans (List.take_prefix i l)

/-- Denylist truncation yields a prefix. -/
theorem truncWordsAux_isPrefix (S : List (List Char)) :
    ∀ (b : Bool) (l : List Char), List.IsPrefix (truncWordsAux S b l) l := by
  intro b l
  induction l generalizing b with
  | nil => exact List.prefix_refl _
  | cons c cs ih =>
    rw [truncWordsAux]
    by_cases hm : matchWordsAt S b (c :: cs) = true
    · rw [if_pos hm]
      exact List.nil_prefix
    · rw [if_neg hm]
      obtain ⟨r, hr⟩ := ih (isWordChar c)
      exact ⟨r, by simp [hr]⟩

/-- Trailing-number stripping yields a prefix. -/
theorem subTrailNum_isPrefix (l : List Char) : List.IsPrefix (subTrailNum l) l := by
  unfold subTrailNum
  split
  · exact List.prefix_refl l
  · split
    · exact ((dropTrailing_isPrefix isNumSep _).trans (dropTrailing_isPrefix isDigit _)).trans
        (dropTrailing_isPrefix isSpace l)
    · exact List.prefix_refl l

/-- The duplicated-halves collapse preserves a non-whitespace head. -/
theorem noLeadWS_subDupHalf {l : List Char} (h : noLeadWS l = true) :
    noLeadWS (subDupHalf l) = true := by
  unfold subDupHalf
  cases findDupK (l.length + 1) 1 l with
  | none => exact h
  | some k => exact noLeadWS_stripList _

/-- The full westfield pipeline never emits leading whitespace. -/
theorem noLeadWS_westfield (l : List Char) :
    noLeadWS (subDupHalf (lateStages (commonStages l))) = true := by
  apply noLeadWS_subDupHalf
  have h0 : noLeadWS (commonStages l) = true := noLeadWS_stripList _
  unfold lateStages
  apply noLeadWS_of_isPrefix (subTrailNum_isPrefix _)
  apply noLeadWS_of_isPrefix (truncWordsAux_isPrefix streetWords false _)
  apply noLeadWS_of_isPrefix (truncWordsAux_isPrefix locWords false _)
  exact noLeadWS_of_isPrefix (subPipe_isPrefix _) h0

/-- The jan pipeline never emits leading whitespace either. -/
theorem noLeadWS_jan (l : List Char) :
    noLeadWS (subDupHalf (commonStages l)) = true :=
  noLeadWS_subDupHalf (noLeadWS_stripList _)

/-! ## Candidate lemmas and extraction invariants -/

/-- A contributed candidate is never the empty string (primary pass). -/
theorem anchorCand_ne_empty {f : String → String} {a : Anchor} {c : String}
    (h : anchorCand f a = some c) : c ≠ ("") := by
  obtain ⟨t, hh⟩ := a
  cases t with
  | none => cases hh <;> simp [anchorCand] at h
  | some t0 =>
    cases hh with
    | none => simp [anchorCand] at h
    | some h0 =>
      simp only [anchorCand] at h
      split at h
      · rename_i hcond
        injection h with h2
        rw [← h2]
        exact hcond.2
      · exact absurd h (by simp)

/-- A contributed candidate is never the empty string (fallback pass). -/
theorem fbCand_ne_empty {f : String → String} {e : FbElem} {c : String}
    (h : fbCand f e = some c) : c ≠ ("") := by
  obtain ⟨t⟩ := e
  cases t with
  | none => simp [fbCand] at h
  | some t0 =>
    simp only [fbCand] at h
    split at h
    · rename_i hcond
      injection h with h2
      rw [← h2]
      exact hcond
    · exact absurd h (by simp)

/-- An anchor whose text or attribute extraction raised contributes no
candidate. -/
theorem anchorCand_eq_none {f : String → String} {a : Anchor}
    (h : a.innerText = none ∨ a.hrefAttr = none) : anchorCand f a = none := by
  obtain ⟨t, hh⟩ := a
  cases t with
  | none => cases hh <;> rfl
  | some t0 =>
    cases hh with
    | none => rfl
    | some h0 => rcases h with h | h <;> simp at h

/-- A fallback element whose text extraction raised contributes no
candidate. -/
theorem fbCand_eq_none {f : String → String} {e : FbElem}
    (h : e.innerText = none) : fbCand f e = none := by
  obtain ⟨t⟩ := e
  cases t with
  | none => rfl
  | some t0 => simp at h

/-- Invariants of the extraction result: no duplicates, no empty string,
and a sublist (hence order-preserving selection) of one of the two
candidate sequences. -/
theorem extractCore_props (f : String → String) (anchors : List Anchor)
    (classEls : List FbElem) :
    (extractCore f anchors classEls).Nodup ∧
    ("") ∉ extractCore f anchors classEls ∧
    (List.Sublist (extractCore f anchors classEls) (anchors.filterMap (anchorCand f)) ∨
     List.Sublist (extractCore f anchors classEls) (classEls.filterMap (fbCand f))) := by
  rw [extractCore_eq]
  by_cases hP : anchors.filterMap (anchorCand f) = []
  · rw [if_pos hP]
    refine ⟨selDedup_nodup _ _, ?_, Or.inr (selDedup_sublist _ _)⟩
    intro hmem
    obtain ⟨e, -, he⟩ := List.mem_filterMap.mp ((selDedup_sublist _ _).subset hmem)
    exact fbCand_ne_empty he rfl
  · rw [if_neg hP]
    refine ⟨selDedup_nodup _ _, ?_, Or.inl (selDedup_sublist _ _)⟩
    intro hmem
    obtain ⟨a, -, ha⟩ := List.mem_filterMap.mp ((selDedup_sublist _ _).subset hmem)
    exact anchorCand_ne_empty ha rfl

/-- C10. For every sequence of page elements, the list returned by
`extract_store_links` (and `extract_store_names_from_page`) contains no
empty string and no two exactly-equal strings, and its elements appear in
accepted order: it is a duplicate-free, empty-free sublist of the ordered
cleaned-candidate sequence of the pass that produced it. -/
theorem C10_extraction_invariants (pg : Page) :
    ((westfield_scraper.extract_store_links pg).Nodup ∧
     ("") ∉ westfield_scraper.extract_store_links pg ∧
     (List.Sublist (westfield_scraper.extract_store_links pg)
        (pg.anchors.filterMap (anchorCand westfield_scraper.clean_store_name)) ∨
      List.Sublist (westfield_scraper.extract_store_links pg)
        (pg.classEls.filterMap (fbCand westfield_scraper.clean_store_name)))) ∧
    ((webscraper_jan.extract_store_names_from_page pg).Nodup ∧
     ("") ∉ webscraper_jan.extract_store_names_from_page pg ∧
     (List.Sublist (webscraper_jan.extract_store_names_from_page pg)
        (pg.anchors.filterMap (anchorCand webscraper_jan.clean_store_name)) ∨
      List.Sublist (webscraper_jan.extract_store_names_from_page pg)
        (pg.classEls.filterMap (fbCand webscraper_jan.clean_store_name)))) :=
  ⟨extractCore_props westfield_scraper.clean_store_name pg.anchors pg.classEls,
   extractCore_props webscraper_jan.clean_store_name pg.anchors pg.classEls⟩

/-- C9. Extraction error handling: an element whose text or attribute
extraction fails is skipped and only that element is lost; the fallback
class scan is used exactly when no anchor passes the filter with a
nonempty cleaned name (`anchorCand` is `none` for every anchor); and the
extraction is a total function (it never propagates an error, by type). -/
theorem C9_extraction_error_handling
    (pre post : List Anchor) (fbs : List FbElem) (a : Anchor)
    (fpre fpost : List FbElem) (e : FbElem) (anchors : List Anchor) :
    ((a.innerText = none ∨ a.hrefAttr = none) →
      westfield_scraper.extract_store_links ⟨pre ++ a :: post, fbs⟩ =
        westfield_scraper.extract_store_links ⟨pre ++ post, fbs⟩) ∧
    (e.innerText = none →
      westfield_scraper.extract_store_links ⟨anchors, fpre ++ e :: fpost⟩ =
        westfield_scraper.extract_store_links ⟨anchors, fpre ++ fpost⟩) ∧
    ((∀ x ∈ anchors, anchorCand westfield_scraper.clean_store_name x = none) →
      westfield_scraper.extract_store_links ⟨anchors, fbs⟩ =
        selDedup [] (fbs.filterMap (fbCand westfield_scraper.clean_store_name))) ∧
    ((∃ x ∈ anchors, anchorCand westfield_scraper.clean_store_name x ≠ none) →
      westfield_scraper.extract_store_links ⟨anchors, fbs⟩ =
        selDedup [] (anchors.filterMap (anchorCand westfield_scraper.clean_store_name))) := by
  refine ⟨?_, ?_, ?_, ?_⟩
  · intro h
    show extractCore westfield_scraper.clean_store_name (pre ++ a :: post) fbs =
      extractCore westfield_scraper.clean_store_name (pre ++ post) fbs
    rw [extractCore_eq, extractCore_eq]
    have hfm : (pre ++ a :: post).filterMap (anchorCand westfield_scraper.clean_store_name) =
        (pre ++ post).filterMap (anchorCand westfield_scraper.clean_store_name) := by
      rw [List.filterMap_append, List.filterMap_append, List.filterMap_cons,
        anchorCand_eq_none h]
    rw [hfm]
  · intro h
    show extractCore westfield_scraper.clean_store_name anchors (fpre ++ e :: fpost) =
      extractCore westfield_scraper.clean_store_name anchors (fpre ++ fpost)
    rw [extractCore_eq, extractCore_eq]
    have hfm : (fpre ++ e :: fpost).filterMap (fbCand westfield_scraper.clean_store_name) =
        (fpre ++ fpost).filterMap (fbCand westfield_scraper.clean_store_name) := by
      rw [List.filterMap_append, List.filterMap_append, List.filterMap_cons,
        fbCand_eq_none h]
    rw [hfm]
  · intro h
    show extractCore westfield_scraper.clean_store_name anchors fbs =
      selDedup [] (fbs.filterMap (fbCand westfield_scraper.clean_store_name))
    rw [extractCore_eq, if_pos (List.filterMap_eq_nil_iff.mpr h)]
  · intro h
    show extractCore westfield_scraper.clean_store_name anchors fbs =
      selDedup [] (anchors.filterMap (anchorCand westfield_scraper.clean_store_name))
    have hne : anchors.filterMap (anchorCand westfield_scraper.clean_store_name) ≠ [] := by
      intro hnil
      obtain ⟨x, hx, hxne⟩ := h
      exact hxne (List.filterMap_eq_nil_iff.mp hnil x hx)
    rw [extractCore_eq, if_neg hne]

/-- Witness for C9 at concrete pages: a failing anchor is dropped, a
failing fallback element is dropped, an all-failing primary pass uses the
fallback scan, and a successful primary pass ignores the fallback list. -/
theorem C9_extraction_error_handling_witness :
    (westfield_scraper.extract_store_links ⟨[⟨none, none⟩], []⟩ =
      westfield_scraper.extract_store_links ⟨[], []⟩) ∧
    (westfield_scraper.extract_store_links
        ⟨[⟨some ("Nike"), some (some ("/se/butiker/nike"))⟩], [⟨none⟩]⟩ =
      westfield_scraper.extract_store_links
        ⟨[⟨some ("Nike"), some (some ("/se/butiker/nike"))⟩], []⟩) ∧
    (westfield_scraper.extract_store_links ⟨[⟨none, none⟩], [⟨some ("Zara")⟩]⟩ =
      selDedup [] ([⟨some ("Zara")⟩].filterMap (fbCand westfield_scraper.clean_store_name))) ∧
    (westfield_scraper.extract_store_links
        ⟨[⟨some ("Nike"), some (some ("/se/butiker/nike"))⟩], []⟩ =
      selDedup [] ([⟨some ("Nike"), some (some ("/se/butiker/nike"))⟩].filterMap
        (anchorCand westfield_scraper.clean_store_name))) := by
  have h1 := C9_extraction_error_handling [] [] [] ⟨none, none⟩ [] [] ⟨none⟩
    [⟨some ("Nike"), some (some ("/se/butiker/nike"))⟩]
  have h2 := C9_extraction_error_handling [] [] [⟨some ("Zara")⟩] ⟨none, none⟩ [] [] ⟨none⟩
    [⟨none, none⟩]
  exact ⟨h1.1 (Or.inl rfl), h1.2.1 rfl, h2.2.2.1 (by decide),
    h1.2.2.2 ⟨⟨some ("Nike"), some (some ("/se/butiker/nike"))⟩, by simp, by decide⟩⟩

/-! ## Claims about the Name Normalizer -/

/-- C1, counterexample. The Name Normalizer is not idempotent: the
leading-label rule is anchored and strips only one label per run, so
`"butik: butik: x"` cleans to `"butik: x"`, which cleans again to `"x"`.
Both implementations fail in the same way. -/
theorem C1_idempotence_counterexample :
    westfield_scraper.clean_store_name (westfield_scraper.clean_store_name ("butik: butik: x")) ≠
      westfield_scraper.clean_store_name ("butik: butik: x") ∧
    webscraper_jan.clean_store_name (webscraper_jan.clean_store_name ("butik: butik: x")) ≠
      webscraper_jan.clean_store_name ("butik: butik: x") := by
  decide

/-- C1, amended. The pipeline is a pure function, hence deterministic,
but idempotent only on favourable inputs: re-running it is a no-op on
each of the spec's documented example inputs, for both implementations. -/
theorem C1_idempotent_on_documented_examples :
    (westfield_scraper.clean_store_name (westfield_scraper.clean_store_name ("Store (Closed)")) =
      westfield_scraper.clean_store_name ("Store (Closed)")) ∧
    (westfield_scraper.clean_store_name (westfield_scraper.clean_store_name ("Name - stängt")) =
      westfield_scraper.clean_store_name ("Name - stängt")) ∧
    (westfield_scraper.clean_store_name (westfield_scraper.clean_store_name ("Butik: Shoe World")) =
      westfield_scraper.clean_store_name ("Butik: Shoe World")) ∧
    (westfield_scraper.clean_store_name (westfield_scraper.clean_store_name ("Shop Shop")) =
      westfield_scraper.clean_store_name ("Shop Shop")) ∧
    (webscraper_jan.clean_store_name (webscraper_jan.clean_store_name ("Store (Closed)")) =
      webscraper_jan.clean_store_name ("Store (Closed)")) ∧
    (webscraper_jan.clean_store_name (webscraper_jan.clean_store_name ("Name - stängt")) =
      webscraper_jan.clean_store_name ("Name - stängt")) ∧
    (webscraper_jan.clean_store_name (webscraper_jan.clean_store_name ("Butik: Shoe World")) =
      webscraper_jan.clean_store_name ("Butik: Shoe World")) ∧
    (webscraper_jan.clean_store_name (webscraper_jan.clean_store_name ("Shop Shop")) =
      webscraper_jan.clean_store_name ("Shop Shop")) := by
  decide

/-- C3, counterexample. The two `clean_store_name` implementations are
not extensionally equal: only the westfield one truncates at a pipe. -/
theorem C3_normalizers_not_equal_counterexample :
    westfield_scraper.clean_store_name ("Name | Location") ≠
      webscraper_jan.clean_store_name ("Name | Location") := by
  decide

/-- C3, amended. The two implementations share stages 1–8 and the final
duplicated-halves collapse verbatim; they agree on every input where the
westfield-only stages 9–12 (pipe, location words, street denylist,
trailing number) leave the shared intermediate unchanged.  This is a
sufficient condition, not a necessary one: on `"1 1"` the condition
fails (the trailing-number strip fires) yet both return `"1"`, the jan
implementation reaching it via the duplicated-halves collapse. -/
theorem C3_normalizers_agree_when_late_stages_trivial (raw : String)
    (h : lateStages (commonStages raw.data) = commonStages raw.data) :
    westfield_scraper.clean_store_name raw = webscraper_jan.clean_store_name raw := by
  unfold westfield_scraper.clean_store_name webscraper_jan.clean_store_name
  rw [h]

/-- Witness for the amended C3 at the input `"Nike"`. -/
theorem C3_normalizers_agree_witness :
    lateStages (commonStages ("Nike").data) = commonStages ("Nike").data ∧
    westfield_scraper.clean_store_name ("Nike") = webscraper_jan.clean_store_name ("Nike") :=
  ⟨by decide, C3_normalizers_agree_when_late_stages_trivial ("Nike") (by decide)⟩

example : lateStages (commonStages ("1 1").data) ≠ commonStages ("1 1").data := by decide
example : westfield_scraper.clean_store_name ("1 1") = ("1") := by decide
example : webscraper_jan.clean_store_name ("1 1") = ("1") := by decide

/-- C5, counterexample. Normalizer output is not always whitespace-
normalized: deleting a lone `plan` leaves a double space inside
`"a plan b"`, and truncating at `gatuplan` leaves a trailing space. -/
theorem C5_whitespace_counterexample :
    westfield_scraper.clean_store_name ("a plan b") ≠ ("") ∧
    wsNormalized (westfield_scraper.clean_store_name ("a plan b")) = false ∧
    westfield_scraper.clean_store_name ("Name gatuplan") ≠ ("") ∧
    wsNormalized (westfield_scraper.clean_store_name ("Name gatuplan")) = false := by
  decide

/-- Reading back the character list of a packed string (stated on a
variable so the rewrite stays syntactic). -/
theorem string_data_mk (l : List Char) : (String.mk l).data = l := rfl

/-- C5, amended. What does hold universally: the normalizer never emits
leading whitespace (every stage after the collapse-and-strip either
strips or truncates on the right), for both implementations. -/
theorem C5_no_leading_whitespace (raw : String) :
    noLeadWS (westfield_scraper.clean_store_name raw).data = true ∧
    noLeadWS (webscraper_jan.clean_store_name raw).data = true := by
  constructor
  · unfold westfield_scraper.clean_store_name
    by_cases hr : raw = ("")
    · rw [if_pos hr]
      decide
    · rw [if_neg hr, string_data_mk]
      exact noLeadWS_westfield raw.data
  · unfold webscraper_jan.clean_store_name
    by_cases hr : raw = ("")
    · rw [if_pos hr]
      decide
    · rw [if_neg hr, string_data_mk]
      exact noLeadWS_jan raw.data

/-- C7. The Name Normalizer satisfies the four documented example
equations, in both implementations. -/
theorem C7_documented_examples :
    westfield_scraper.clean_store_name ("Store (Closed)") = ("Store") ∧
    westfield_scraper.clean_store_name ("Name - stängt") = ("Name") ∧
    westfield_scraper.clean_store_name ("Butik: Shoe World") = ("Shoe World") ∧
    westfield_scraper.clean_store_name ("Shop Shop") = ("Shop") ∧
    webscraper_jan.clean_store_name ("Store (Closed)") = ("Store") ∧
    webscraper_jan.clean_store_name ("Name - stängt") = ("Name") ∧
    webscraper_jan.clean_store_name ("Butik: Shoe World") = ("Shoe World") ∧
    webscraper_jan.clean_store_name ("Shop Shop") = ("Shop") := by
  decide

/-! ## Claims about filtering, deduplication and merging -/

/-- C2, counterexample. The per-source deduplication in `main` compares
exact strings, not case-insensitive ones: `"zara"` survives next to
`"Zara"`, so the documented expected output is wrong on the code. -/
theorem C2_per_source_dedup_counterexample :
    westfield_scraper.perSourceDedup [("Zara"), ("zara"), ("H&M"), ("Butik")] ≠
      [("Zara"), ("H&M")] := by
  decide

/-- C2, amended. The per-source deduplicator removes exact (case-
sensitive) duplicates while preserving first-seen order, and drops names
case-insensitively equal to a header token; on the documented input the
result is `["Zara", "zara", "H&M"]`. -/
theorem C2_per_source_dedup_amended :
    westfield_scraper.perSourceDedup [("Zara"), ("zara"), ("H&M"), ("Butik")] =
      [("Zara"), ("zara"), ("H&M")] ∧
    ∀ names : List String,
      (westfield_scraper.perSourceDedup names).Nodup ∧
      List.Sublist (westfield_scraper.perSourceDedup names) names ∧
      ∀ x ∈ westfield_scraper.perSourceDedup names,
        x ≠ ("") ∧ lowerStr (stripStr x) ∉ westfield_scraper.stopHeaders := by
  refine ⟨by decide, ?_⟩
  intro names
  have hu : (names.foldl dedupStep ([], [])).1 = selDedup [] names := by
    rw [foldl_dedupStep_eq]
    simp
  unfold westfield_scraper.perSourceDedup
  rw [hu]
  refine ⟨(selDedup_nodup names []).filter _,
    (List.filter_sublist _).trans (selDedup_sublist names []), ?_⟩
  intro x hx
  exact of_decide_eq_true (List.mem_filter.mp hx).2

/-- C4, counterexample. A source with no names still contributes its
header line to the grouped display, so it does not contribute "no lines"
to the Grouped view. -/
theorem C4_empty_source_counterexample :
    westfield_scraper.mergedDisplay [(("A"), []), (("B"), [("x")])] ≠
      westfield_scraper.mergedDisplay [(("B"), [("x")])] := by
  decide

/-- C4, amended. A source whose extraction yields zero accepted names
produces an empty per-source list, contributes exactly its header line
and no numbered store lines to the Grouped view, contributes nothing to
the Unique view, and leaves every other source's output unchanged. -/
theorem C4_empty_source_amended (pre post : List (String × List String)) (t slug : String) :
    westfield_scraper.perSourceDedup [] = [] ∧
    westfield_scraper.mergedDisplay (pre ++ (t, ([] : List String)) :: post) =
      westfield_scraper.mergedDisplay pre ++
        ((("== ") ++ t ++ (" ==")) :: westfield_scraper.mergedDisplay post) ∧
    export_westfield_to_excel.uniqueView
        (export_westfield_to_excel.mergedRows (pre ++ (slug, ([] : List String)) :: post)) =
      export_westfield_to_excel.uniqueView
        (export_westfield_to_excel.mergedRows (pre ++ post)) := by
  refine ⟨by decide, ?_, ?_⟩
  · unfold westfield_scraper.mergedDisplay
    rw [List.map_append, List.map_cons, List.flatten_append, List.flatten_cons]
    simp [westfield_scraper.groupedLines, westfield_scraper.numberedLines]
  · have hrows : export_westfield_to_excel.mergedRows (pre ++ (slug, ([] : List String)) :: post) =
        export_westfield_to_excel.mergedRows (pre ++ post) := by
      unfold export_westfield_to_excel.mergedRows
      rw [List.map_append, List.map_cons, List.flatten_append, List.flatten_cons,
        List.map_append, List.flatten_append]
      simp
    rw [hrows]

/-- C6. The Unique view keeps exactly the first occurrence of every name
under the case-insensitive key, in scan order, recording the source of
that first occurrence; on the documented two-source example it equals
`[("Zara","A"), ("COS","A"), ("Nike","B")]`. -/
theorem C6_unique_view_first_occurrence :
    (∀ rows : List (String × String),
      export_westfield_to_excel.uniqueView rows =
        export_westfield_to_excel.firstOccurrenceView [] rows) ∧
    export_westfield_to_excel.uniqueView
        (export_westfield_to_excel.mergedRows
          [(("A"), [("Zara"), ("COS")]), (("B"), [("zara"), ("Nike")])]) =
      [(("Zara"), ("A")), (("COS"), ("A")), (("Nike"), ("B"))] :=
  ⟨uniqueView_eq_firstOccurrenceView, by decide⟩

/-- C8. The Candidate Filter accepts exactly the candidates whose
trimmed text has at least 2 characters and whose lower-cased href
contains a path keyword or whose lower-cased text contains a text
keyword; `("Nike", "/se/butiker/nike")` is accepted and
`("About", "/about-us")` is rejected. -/
theorem C8_candidate_filter :
    (∀ text href : String,
      candidateFilter text href = true ↔
        (2 ≤ (stripStr text).length ∧
          (heuristics.any (fun k => containsStr (lowerStr href) k) = true ∨
           textKeys.any (fun k => containsStr (lowerStr (stripStr text)) k) = true))) ∧
    candidateFilter ("Nike") ("/se/butiker/nike") = true ∧
    candidateFilter ("About") ("/about-us") = false := by
  refine ⟨?_, by decide, by decide⟩
  intro text href
  unfold candidateFilter
  by_cases hlen : (stripStr text).length < 2
  · rw [if_pos hlen]
    constructor
    · intro h
      exact absurd h (by simp)
    · rintro ⟨h2, -⟩
      exact absurd h2 (by omega)
  · rw [if_neg hlen]
    rw [Bool.or_eq_true]
    constructor
    · intro h
      exact ⟨by omega, h⟩
    · intro h
      exact h.2

/-- Witness for the amended C2 at the documented input: `"Zara"` is kept
and satisfies the header-freedom property. -/
theorem C2_per_source_dedup_witness :
    ("Zara") ∈ westfield_scraper.perSourceDedup [("Zara"), ("zara"), ("H&M"), ("Butik")] ∧
    (("Zara") ≠ ("") ∧
      lowerStr (stripStr ("Zara")) ∉ westfield_scraper.stopHeaders) :=
  ⟨by decide,
   (C2_per_source_dedup_amended.2 [("Zara"), ("zara"), ("H&M"), ("Butik")]).2.2
     ("Zara") (by decide)⟩

/-- Witness for C10 at a concrete one-anchor page. -/
theorem C10_extraction_invariants_witness :
    (westfield_scraper.extract_store_links
        ⟨[⟨some ("Nike"), some (some ("/se/butiker/nike"))⟩], []⟩).Nodup ∧
    ("") ∉ westfield_scraper.extract_store_links
        ⟨[⟨some ("Nike"), some (some ("/se/butiker/nike"))⟩], []⟩ :=
  ⟨(C10_extraction_invariants ⟨[⟨some ("Nike"), some (some ("/se/butiker/nike"))⟩], []⟩).1.1,
   (C10_extraction_invariants ⟨[⟨some ("Nike"), some (some ("/se/butiker/nike"))⟩], []⟩).1.2.1⟩
